import Mathlib

/-!
Verification of the `history` transaction-ingestion core
(`services/horizon/internal/db2/history/transaction.go` and friends).

Shallow embedding conventions:
* Go machine integers are `Nat`/`Int`; the explicit `int32` conversions of the
  source are modelled by `int32OfNat`/`int32OfInt` (wrap modulo 2^32, signed).
* Go byte strings (which may be invalid UTF-8) are `List Nat` with entries < 256.
* A Go function that can `panic` is embedded with the `Outcome` type below, so a
  panic is distinguished from a normal `error` return.
* The external XDR codec (`xdr.MarshalBase64` / `xdr.SafeUnmarshalBase64`) is an
  opaque external capability: its outcome on each payload is passed in as an
  `Except`/constructor argument.
* The two `time.Now().UTC()` calls of `transactionToMap` are modelled by an
  explicit clock `now : Nat → Int`, where `now i` is the result of the i-th
  call, in source order (`created_at` first, `updated_at` second).
-/

/-- Result of running a Go function: normal value, normal `error` return, or a
runtime panic. -/
inductive Outcome (α : Type) where
  | ok : α → Outcome α
  | error : String → Outcome α
  | panicked : String → Outcome α
deriving DecidableEq, Repr

/-- The `guregu/null` `null.String` value: a string plus a validity flag.
`null.NewString(value, valid)` is `⟨value, valid⟩`. -/
structure NullString where
  value : String
  valid : Bool
deriving DecidableEq, Repr

/-- Alphabet of RFC 4648 standard base64, as used by `base64.StdEncoding`. -/
def base64Alphabet : List Char :=
  "ABCDEFGHIJKLMNOPQRSTUVWXYZabcdefghijklmnopqrstuvwxyz0123456789+/".data

/-- The base64 digit for a 6-bit value. -/
def base64Digit (n : Nat) : Char := base64Alphabet.getD n (Char.ofNat 65)

/-- Standard base64 of a byte list, three input bytes to four output chars,
with `=` padding; mirrors `base64.StdEncoding.EncodeToString`. -/
def base64Chunks : List Nat → List Char
  | [] => []
  | [b1] => [base64Digit (b1 / 4), base64Digit (b1 % 4 * 16), '=', '=']
  | [b1, b2] =>
    [base64Digit (b1 / 4), base64Digit (b1 % 4 * 16 + b2 / 16),
     base64Digit (b2 % 16 * 4), '=']
  | b1 :: b2 :: b3 :: rest =>
    base64Digit (b1 / 4) :: base64Digit (b1 % 4 * 16 + b2 / 16) ::
    base64Digit (b2 % 16 * 4 + b3 / 64) :: base64Digit (b3 % 64) ::
    base64Chunks rest

/-- Embedding of Go `base64.StdEncoding.EncodeToString`. -/
def base64StdEncode (bs : List Nat) : String := String.mk (base64Chunks bs)

/-- Lower-case hex digits, as used by `hex.EncodeToString`. -/
def hexDigits : List Char := "0123456789abcdef".data

/-- Embedding of Go `hex.EncodeToString`: two lower-case hex digits per byte. -/
def hexEncode (bs : List Nat) : String :=
  String.mk ((bs.map (fun b =>
    [hexDigits.getD (b / 16) (Char.ofNat 48),
     hexDigits.getD (b % 16) (Char.ofNat 48)])).flatten)

/-- The Unicode replacement character U+FFFD, the safe substitute for invalid
encoding sequences. -/
def replacementChar : Char := Char.ofNat 0xFFFD

/-- Modelled from the spec: the repository's external `utf8.Scrub` helper is not
under `src/`; per the spec it decodes a byte string as UTF-8 text, replacing any
embedded invalid-encoding sequence with a safe substitute (U+FFFD). This is a
standard UTF-8 decoder over the raw bytes. The first argument is fuel
bounding the number of decoded characters; since every step consumes at least
one byte, `utf8Scrub` passes the byte count, which is always sufficient. -/
def utf8DecodeChars : Nat → List Nat → List Char
  | 0, _ => []
  | _ + 1, [] => []
  | fuel + 1, b1 :: rest =>
    if b1 < 0x80 then
      Char.ofNat b1 :: utf8DecodeChars fuel rest
    else if 0xC2 ≤ b1 ∧ b1 ≤ 0xDF then
      match rest with
      | b2 :: rest2 =>
        if 0x80 ≤ b2 ∧ b2 ≤ 0xBF then
          Char.ofNat ((b1 - 0xC0) * 64 + (b2 - 0x80)) :: utf8DecodeChars fuel rest2
        else
          replacementChar :: utf8DecodeChars fuel (b2 :: rest2)
      | [] => [replacementChar]
    else if 0xE0 ≤ b1 ∧ b1 ≤ 0xEF then
      match rest with
      | b2 :: b3 :: rest3 =>
        let cp := (b1 - 0xE0) * 4096 + (b2 - 0x80) * 64 + (b3 - 0x80)
        if (0x80 ≤ b2 ∧ b2 ≤ 0xBF) ∧ (0x80 ≤ b3 ∧ b3 ≤ 0xBF) ∧
           0x800 ≤ cp ∧ (cp < 0xD800 ∨ 0xDFFF < cp) then
          Char.ofNat cp :: utf8DecodeChars fuel rest3
        else
          replacementChar :: utf8DecodeChars fuel (b2 :: b3 :: rest3)
      | other => replacementChar :: utf8DecodeChars fuel other
    else if 0xF0 ≤ b1 ∧ b1 ≤ 0xF4 then
      match rest with
      | b2 :: b3 :: b4 :: rest4 =>
        let cp := (b1 - 0xF0) * 262144 + (b2 - 0x80) * 4096 +
                  (b3 - 0x80) * 64 + (b4 - 0x80)
        if (0x80 ≤ b2 ∧ b2 ≤ 0xBF) ∧ (0x80 ≤ b3 ∧ b3 ≤ 0xBF) ∧
           (0x80 ≤ b4 ∧ b4 ≤ 0xBF) ∧ 0x10000 ≤ cp ∧ cp ≤ 0x10FFFF then
          Char.ofNat cp :: utf8DecodeChars fuel rest4
        else
          replacementChar :: utf8DecodeChars fuel (b2 :: b3 :: b4 :: rest4)
      | other => replacementChar :: utf8DecodeChars fuel other
    else
      replacementChar :: utf8DecodeChars fuel rest

/-- Modelled from the spec: `utf8.Scrub` (missing from `src/`) returns the
scrubbed text as a string. -/
def utf8Scrub (bs : List Nat) : String := String.mk (utf8DecodeChars bs.length bs)

/-- Embedding of the Go expression
`strings.Join(strings.Split(scrubbed, "\x00"), "")` from the `memo` function:
splitting on NUL and re-joining with the empty separator removes every NUL
character, which is exactly a filter. -/
def removeNulls (s : String) : String :=
  String.mk (s.data.filter (fun c => c != Char.ofNat 0))

/-- The optional `xdr.TimeBounds` block of a transaction envelope.
`MinTime`/`MaxTime` are `xdr.TimePoint`, an unsigned 64-bit integer. -/
structure TimeBounds where
  minTime : Nat
  maxTime : Nat
deriving DecidableEq, Repr

/-- The `xdr.Memo` union: a type tag (`xdr.MemoType`, an integer enum that may
hold values outside the known range when decoded from a future protocol
version) plus optional payloads. The known tags are 0 = `MemoTypeMemoNone`,
1 = `MemoTypeMemoText`, 2 = `MemoTypeMemoId`, 3 = `MemoTypeMemoHash`,
4 = `MemoTypeMemoReturn`. The `Must...` accessors of the Go union panic when
the corresponding payload is absent, which the `Option` fields model. The text
payload is a raw Go string, i.e. a byte list that may be invalid UTF-8; the
hash payloads are 32-byte digests. -/
structure Memo where
  type : Int
  text : Option (List Nat)
  id : Option Nat
  hash : Option (List Nat)
  retHash : Option (List Nat)
deriving DecidableEq, Repr

/-- The fields of `xdr.Transaction` read by the normalizer. `SourceAccount` is
stored in its `Address()` string form (strkey encoding is an external
capability). `operations` is the length of the operation list; only
`len(Operations)` is read by the source. `seqNum` is `xdr.SequenceNumber`, a
signed 64-bit integer; `fee` is `xdr.Uint32`. -/
structure TxFields where
  sourceAccount : String
  fee : Nat
  seqNum : Int
  timeBounds : Option TimeBounds
  memo : Memo
  operations : Nat
deriving DecidableEq, Repr

/-- The fields of `xdr.TransactionEnvelope` read by the normalizer: the inner
transaction and the list of decorated signatures (each signature being its raw
byte payload, `sig.Signature`). -/
structure TransactionEnvelope where
  tx : TxFields
  signatures : List (List Nat)
deriving DecidableEq, Repr

/-- The `xdr.TransactionResultCode` enum (the codes relevant here; the source
compares only against `TransactionResultCodeTxSuccess`). -/
inductive TransactionResultCode where
  | txSuccess
  | txFailed
  | txTooEarly
  | txTooLate
  | txBadSeq
  | txInternalError
deriving DecidableEq, Repr

/-- The fields of `xdr.TransactionResult` read by the normalizer: the charged
fee (`xdr.Int64`) and the result code of the inner result union. -/
structure TransactionResult where
  feeCharged : Int
  resultCode : TransactionResultCode
deriving DecidableEq, Repr

/-- The fields of `xdr.TransactionResultPair` read by the normalizer: the
32-byte transaction hash and the decoded result. -/
structure TransactionResultPair where
  transactionHash : List Nat
  result : TransactionResult
deriving DecidableEq, Repr

/-- The fields of `io.LedgerTransaction` read by the normalizer. `Meta` and
`FeeChanges` are only ever passed to the opaque XDR marshaller, so they carry
no further structure here; their marshal outcomes are passed to
`transactionToMap` directly. -/
structure LedgerTransaction where
  index : Nat
  envelope : TransactionEnvelope
  result : TransactionResultPair
deriving DecidableEq, Repr

/-- Embedding of Go `int32(n)` applied to an unsigned value: wrap modulo 2^32
and reinterpret as signed. -/
def int32OfNat (n : Nat) : Int :=
  let r := n % 4294967296
  if r < 2147483648 then (r : Int) else (r : Int) - 4294967296

/-- Embedding of Go `int32(i)` applied to a signed 64-bit value: wrap modulo
2^32 and reinterpret as signed. -/
def int32OfInt (i : Int) : Int :=
  let r := i % 4294967296
  if r < 2147483648 then r else r - 4294967296

/-- Modelled from the spec: the `toid` package is not under `src/`. Per the
spec, `pack` maps (ledger sequence, transaction index, operation index) to a
single 64-bit key with the ledger sequence in the most significant bits so that
ordering by the key equals lexicographic ordering by the triple; the ledger
occupies the top 32 bits, the transaction index the next 20, the operation
index the final 12. `toid.ID with LedgerSequence seq` has zero transaction and
operation order, so its key is `pack seq 0 0`. -/
def pack (ledgerSeq txIndex opIndex : Int) : Int :=
  ledgerSeq * 4294967296 + txIndex * 4096 + opIndex

/-- The value the source stores in the `time_bounds` column: SQL `NULL` or an
`int8range(lo, hi)` expression whose upper bound may itself be `NULL`. -/
inductive TimeBoundsSQL where
  | null
  | int8range (lo : Nat) (hi : Option Int)
deriving DecidableEq, Repr

/-- Embedding of `formatTimeBounds` (transaction.go): `NULL` when the envelope
has no time bounds; an unbounded-above range when `MaxTime` is the sentinel 0;
otherwise a bounded range with `MaxTime` clamped to `math.MaxInt64`. -/
def formatTimeBounds (transaction : LedgerTransaction) : TimeBoundsSQL :=
  match transaction.envelope.tx.timeBounds with
  | none => .null
  | some tb =>
    if tb.maxTime = 0 then
      .int8range tb.minTime none
    else
      let maxTime := if tb.maxTime > 9223372036854775807 then 9223372036854775807 else tb.maxTime
      .int8range tb.minTime (some (maxTime : Int))

/-- Embedding of `signatures` (transaction.go): each envelope signature,
base64-encoded, order preserved. -/
def signatures (transaction : LedgerTransaction) : List String :=
  transaction.envelope.signatures.map base64StdEncode

/-- Embedding of `memoType` (transaction.go): the `switch` over
`transaction.Envelope.Tx.Memo.Type`; the `default` arm is a Go `panic`. -/
def memoType (transaction : LedgerTransaction) : Outcome String :=
  let t := transaction.envelope.tx.memo.type
  if t = 0 then .ok "none"
  else if t = 1 then .ok "text"
  else if t = 2 then .ok "id"
  else if t = 3 then .ok "hash"
  else if t = 4 then .ok "return"
  else .panicked "invalid memo type"

/-- Embedding of `memo` (transaction.go): the `switch` over the memo type.
Text memos are scrubbed (`utf8.Scrub`) and then stripped of every NUL
character; id memos are printed in decimal; hash and return memos are
base64-encoded digests; the `default` arm is a Go `panic`, as are the
`Must...` accessors when the payload is absent. -/
def memo (transaction : LedgerTransaction) : Outcome NullString :=
  let m := transaction.envelope.tx.memo
  if m.type = 0 then .ok ⟨"", false⟩
  else if m.type = 1 then
    match m.text with
    | none => .panicked "MustText: memo text payload absent"
    | some bs => .ok ⟨removeNulls (utf8Scrub bs), true⟩
  else if m.type = 2 then
    match m.id with
    | none => .panicked "MustId: memo id payload absent"
    | some n => .ok ⟨toString n, true⟩
  else if m.type = 3 then
    match m.hash with
    | none => .panicked "MustHash: memo hash payload absent"
    | some h => .ok ⟨base64StdEncode h, true⟩
  else if m.type = 4 then
    match m.retHash with
    | none => .panicked "MustRetHash: memo return payload absent"
    | some h => .ok ⟨base64StdEncode h, true⟩
  else .panicked "invalid memo type"

/-- The row mapping produced by `transactionToMap`, one field per key of the
returned `map[string]interface` literal (in source order). -/
structure InsertRow where
  id : Int
  transaction_hash : String
  ledger_sequence : Nat
  application_order : Int
  account : String
  account_sequence : String
  max_fee : Int
  fee_charged : Int
  operation_count : Int
  tx_envelope : String
  tx_result : String
  tx_meta : String
  tx_fee_meta : String
  sigs : List String
  time_bounds : TimeBoundsSQL
  memo_type : String
  memoVal : NullString
  created_at : Int
  updated_at : Int
  successful : Bool
deriving DecidableEq, Repr

/-- Embedding of `transactionToMap` (transaction.go). The four `Except` inputs
are the outcomes of the opaque `xdr.MarshalBase64` calls on the envelope,
result, meta and fee-changes payloads, checked in source order; a failure is a
normal error return. The memo type and memo value are computed by `memoType`
and `memo`, whose panics propagate (they are evaluated inside the map literal,
after the marshal error checks, with `memo_type` written before `memo`).
`now i` is the result of the i-th `time.Now().UTC()` call: `created_at` is the
first call and `updated_at` the second. `successful` is computed from the
decoded result code alone. -/
def transactionToMap (now : Nat → Int)
    (envB64 resB64 metaB64 feeMetaB64 : Except String String)
    (transaction : LedgerTransaction) (sequence : Nat) : Outcome InsertRow :=
  match envB64 with
  | .error e => .error e
  | .ok envelopeBase64 =>
  match resB64 with
  | .error e => .error e
  | .ok resultBase64 =>
  match metaB64 with
  | .error e => .error e
  | .ok metaBase64 =>
  match feeMetaB64 with
  | .error e => .error e
  | .ok feeMetaBase64 =>
  match memoType transaction with
  | .panicked msg => .panicked msg
  | .error e => .error e
  | .ok memoTypeVal =>
  match memo transaction with
  | .panicked msg => .panicked msg
  | .error e => .error e
  | .ok memoVal =>
    .ok {
      id := pack (int32OfNat sequence) (int32OfNat transaction.index) 0
      transaction_hash := hexEncode transaction.result.transactionHash
      ledger_sequence := sequence
      application_order := int32OfNat transaction.index
      account := transaction.envelope.tx.sourceAccount
      account_sequence := toString transaction.envelope.tx.seqNum
      max_fee := int32OfNat transaction.envelope.tx.fee
      fee_charged := int32OfInt transaction.result.result.feeCharged
      operation_count := int32OfNat transaction.envelope.tx.operations
      tx_envelope := envelopeBase64
      tx_result := resultBase64
      tx_meta := metaBase64
      tx_fee_meta := feeMetaBase64
      sigs := signatures transaction
      time_bounds := formatTimeBounds transaction
      memo_type := memoTypeVal
      memoVal := memoVal
      created_at := now 0
      updated_at := now 1
      successful := transaction.result.result.resultCode = .txSuccess
    }

/-- A WHERE predicate added by the transaction query builder. The construction
library (squirrel) is external; predicates are modelled by which builder call
produced them, carrying the bound arguments. `successFilter` is the textual
predicate `(ht.successful = true OR ht.successful IS NULL)`. -/
inductive WherePred where
  | participantAccountEq (accountId : Int)
  | idRange (lo hi : Int)
  | pageWindow (cursor : Int) (descending : Bool)
  | successFilter
deriving DecidableEq, Repr

/-- The state of the squirrel select builder that the transaction queries
thread along: the joined tables and the conjoined WHERE predicates, in the
order they were added. -/
structure SelectBuilder where
  joins : List String
  wheres : List WherePred
deriving DecidableEq, Repr

/-- Embedding of the `selectTransaction` base query (transaction.go): a select
from `history_transactions ht` with a left join onto `history_ledgers` and no
WHERE predicates yet. -/
def selectTransaction : SelectBuilder :=
  { joins := ["LEFT JOIN history_ledgers hl ON ht.ledger_sequence = hl.sequence"],
    wheres := [] }

/-- Embedding of the `TransactionsQ` struct: the builder state, the
`includeFailed` flag and the deferred `Err` field. -/
structure TransactionsQ where
  sql : SelectBuilder
  includeFailed : Bool
  err? : Option String
deriving DecidableEq, Repr

/-- Embedding of `Q.Transactions()` (transaction.go): the base query with
`includeFailed` false and no error. -/
def Transactions : TransactionsQ :=
  { sql := selectTransaction, includeFailed := false, err? := none }

/-- Embedding of `TransactionsQ.ForAccount`: `AccountByAddress` is an external
lookup whose outcome is passed in. The Go method assigns its result to `q.Err`
unconditionally (so a successful lookup clears a previous error) and on success
joins the participants table and filters on the resolved account id. -/
def TransactionsQ.ForAccount (q : TransactionsQ) (lookup : Except String Int) :
    TransactionsQ :=
  match lookup with
  | .error e => { q with err? := some e }
  | .ok accountId =>
    { q with
      err? := none,
      sql := { q.sql with
        joins := q.sql.joins ++
          ["JOIN history_transaction_participants htp ON htp.history_transaction_id = ht.id"],
        wheres := q.sql.wheres ++ [.participantAccountEq accountId] } }

/-- Embedding of `TransactionsQ.ForLedger`: `LedgerBySequence` is an external
lookup whose outcome is passed in; on success the query is restricted to
`ht.id >= start AND ht.id < end` where `start` is the key of
`toid.ID with LedgerSequence seq` and `end` that of sequence `seq + 1`. -/
def TransactionsQ.ForLedger (q : TransactionsQ) (lookup : Except String Unit)
    (seq : Int) : TransactionsQ :=
  match lookup with
  | .error e => { q with err? := some e }
  | .ok _ =>
    { q with
      err? := none,
      sql := { q.sql with
        wheres := q.sql.wheres ++ [.idRange (pack seq 0 0) (pack (seq + 1) 0 0)] } }

/-- Embedding of `TransactionsQ.IncludeFailed`: sets the flag. -/
def TransactionsQ.IncludeFailed (q : TransactionsQ) : TransactionsQ :=
  { q with includeFailed := true }

/-- Embedding of `TransactionsQ.Page`: returns unchanged when an error is
already recorded; otherwise applies the external `page.ApplyTo`, whose outcome
(a paging cursor predicate over the `ht.id` column, or an error) is passed
in. -/
def TransactionsQ.Page (q : TransactionsQ)
    (outcome : Except String (Int × Bool)) : TransactionsQ :=
  if q.err?.isSome then q
  else
    match outcome with
    | .error e => { q with err? := some e }
    | .ok (cursor, descending) =>
      { q with
        err? := none,
        sql := { q.sql with
          wheres := q.sql.wheres ++ [.pageWindow cursor descending] } }

deriving instance DecidableEq for Except

/-- One filter invocation on a `TransactionsQ`, with the outcome of any
external lookup it performs; a list of these describes an arbitrary query
built from `Q.Transactions()`. -/
inductive FilterOp where
  | forAccount (lookup : Except String Int)
  | forLedger (lookup : Except String Unit) (seq : Int)
  | includeFailedOp
  | page (outcome : Except String (Int × Bool))
deriving DecidableEq, Repr

/-- Apply one filter invocation. -/
def applyOp (q : TransactionsQ) : FilterOp → TransactionsQ
  | .forAccount lookup => q.ForAccount lookup
  | .forLedger lookup seq => q.ForLedger lookup seq
  | .includeFailedOp => q.IncludeFailed
  | .page outcome => q.Page outcome

/-- The query built by `Q.Transactions()` followed by the given chain of
filter invocations. -/
def buildQ (ops : List FilterOp) : TransactionsQ :=
  ops.foldl applyOp Transactions

/-- The SQL that `TransactionsQ.Select` hands to the session: when
`includeFailed` is not set it first conjoins the success predicate
`(ht.successful = true OR ht.successful IS NULL)` (transaction.go lines
134-137). -/
def TransactionsQ.selectSQL (q : TransactionsQ) : SelectBuilder :=
  if q.includeFailed then q.sql
  else { q.sql with wheres := q.sql.wheres ++ [.successFilter] }

/-- The stored `tx_result` column of a fetched row, as seen through the opaque
`xdr.SafeUnmarshalBase64`: either the payload fails to decode, or it decodes to
a result whose code is given. -/
inductive TxResultPayload where
  | undecodable
  | decoded (code : TransactionResultCode)
deriving DecidableEq, Repr

/-- The fields of a fetched `Transaction` row read by the post-fetch checks of
`TransactionsQ.Select`: the hash, the stored result payload and the nullable
`successful` column. -/
structure Transaction where
  transactionHash : String
  txResult : TxResultPayload
  successful : Option Bool
deriving DecidableEq, Repr

/-- Embedding of `Transaction.IsSuccessful` (transaction.go lines 24-30): a
`NULL` success flag counts as successful. -/
def Transaction.IsSuccessful (t : Transaction) : Bool :=
  match t.successful with
  | none => true
  | some b => b

/-- The errors `TransactionsQ.Select` can return from its per-row loop, one
constructor per distinct message (the Go messages also interpolate the hash
and the raw result, which does not affect which error fires):
`decodeFailed` for a `SafeUnmarshalBase64` failure;
`corruptExcludedFlagFalse` for "include_failed=false but returned transaction
is failed" triggered by the success flag;
`corruptExcludedResultFailed` for the same message triggered by the decoded
result code;
`corruptSuccessfulTrue` for "successful=true but returned transaction is not
success";
`corruptSuccessfulFalse` for "successful=false but returned transaction is
success". -/
inductive SelectError where
  | decodeFailed
  | corruptExcludedFlagFalse
  | corruptExcludedResultFailed
  | corruptSuccessfulTrue
  | corruptSuccessfulFalse
deriving DecidableEq, Repr

/-- Embedding of the body of the per-row loop of `TransactionsQ.Select`
(transaction.go lines 149-174): decode the stored result, then run the
include-failed checks and the two flag/result cross-checks, returning the
first failure. -/
def checkRow (includeFailed : Bool) (t : Transaction) : Option SelectError :=
  match t.txResult with
  | .undecodable => some .decodeFailed
  | .decoded code =>
    if includeFailed = false ∧ t.IsSuccessful = false then
      some .corruptExcludedFlagFalse
    else if includeFailed = false ∧ code ≠ .txSuccess then
      some .corruptExcludedResultFailed
    else if t.IsSuccessful = true ∧ code ≠ .txSuccess then
      some .corruptSuccessfulTrue
    else if t.IsSuccessful = false ∧ code = .txSuccess then
      some .corruptSuccessfulFalse
    else
      none

/-- Embedding of the whole per-row loop: the first error among the fetched
rows, in order, if any. -/
def checkRows (includeFailed : Bool) : List Transaction → Option SelectError
  | [] => none
  | t :: rest =>
    match checkRow includeFailed t with
    | some e => some e
    | none => checkRows includeFailed rest

/-- Embedding of `TransactionsQ.Select` end to end: an already-recorded error
is returned as is; otherwise the final SQL (with the success filter conjoined
unless `includeFailed`) is handed to the session, modelled by the oracle `db`;
a session error propagates; otherwise the per-row checks run and their first
failure is returned, else the rows. -/
inductive SelectResult where
  | queryErr (e : String)
  | dbErr (e : String)
  | rowErr (e : SelectError)
  | rows (ts : List Transaction)
deriving DecidableEq, Repr

/-- Embedding of `TransactionsQ.Select` control flow. -/
def TransactionsQ.Select (q : TransactionsQ)
    (db : SelectBuilder → Except String (List Transaction)) : SelectResult :=
  match q.err? with
  | some e => .queryErr e
  | none =>
    match db q.selectSQL with
    | .error e => .dbErr e
    | .ok transactions =>
      match checkRows q.includeFailed transactions with
      | some e => .rowErr e
      | none => .rows transactions

/-- A persisted transaction row as compared by the consistency checker, one
field per column of the data model (the ingestion timestamps are not part of
the comparison: the checker's own test inserts the same transaction into the
two tables at different wall-clock instants and still expects a valid
verdict). -/
structure TransactionRow where
  id : Int
  transaction_hash : String
  ledger_sequence : Int
  application_order : Int
  account : String
  account_sequence : String
  max_fee : Int
  fee_charged : Int
  operation_count : Int
  tx_envelope : String
  tx_result : String
  tx_meta : String
  tx_fee_meta : String
  sigs : List String
  time_bounds : TimeBoundsSQL
  memo_type : String
  memoVal : Option String
  successful : Option Bool
deriving DecidableEq, Repr

/-- Modelled from the spec: column-by-column equality of two rows — exact
equality for scalars, exact encoding equality for blobs, exact sequence
equality (including order) for signatures. -/
def rowEq (a b : TransactionRow) : Bool :=
  a.id = b.id ∧
  a.transaction_hash = b.transaction_hash ∧
  a.ledger_sequence = b.ledger_sequence ∧
  a.application_order = b.application_order ∧
  a.account = b.account ∧
  a.account_sequence = b.account_sequence ∧
  a.max_fee = b.max_fee ∧
  a.fee_charged = b.fee_charged ∧
  a.operation_count = b.operation_count ∧
  a.tx_envelope = b.tx_envelope ∧
  a.tx_result = b.tx_result ∧
  a.tx_meta = b.tx_meta ∧
  a.tx_fee_meta = b.tx_fee_meta ∧
  a.sigs = b.sigs ∧
  a.time_bounds = b.time_bounds ∧
  a.memo_type = b.memo_type ∧
  a.memoVal = b.memoVal ∧
  a.successful = b.successful

/-- Insert a row into a list sorted by ascending `id`. -/
def insertByID (r : TransactionRow) : List TransactionRow → List TransactionRow
  | [] => [r]
  | s :: rest => if r.id ≤ s.id then r :: s :: rest else s :: insertByID r rest

/-- Sort rows by ascending `id` (insertion sort). -/
def sortByID : List TransactionRow → List TransactionRow
  | [] => []
  | r :: rest => insertByID r (sortByID rest)

/-- Modelled from the spec: the checker fetches, from a table, the full set of
rows whose key lies in the half-open range covering the given ledger,
ordered by `id`. -/
def fetchForLedger (table : List TransactionRow) (seq : Int) :
    List TransactionRow :=
  sortByID (table.filter
    (fun r => decide (pack seq 0 0 ≤ r.id) && decide (r.id < pack (seq + 1) 0 0)))

/-- Pairwise row comparison of two equally long fetched lists. -/
def rowsMatch : List TransactionRow → List TransactionRow → Bool
  | [], [] => true
  | a :: as_, b :: bs_ => rowEq a b && rowsMatch as_ bs_
  | _, _ => false

/-- Modelled from the spec: `CheckExpTransactions` is not under `src/` (only
its test is). Per the spec, for one ledger sequence it fetches the row sets of
the legacy and shadow tables over the ledger's key range, each ordered by
`id`; if the sizes differ the verdict is invalid, otherwise the rows are
compared pairwise column by column and any single mismatch makes the ledger
invalid. It reads the tables and writes nothing. -/
def CheckExpTransactions (legacy shadow : List TransactionRow) (seq : Int) :
    Bool :=
  let l := fetchForLedger legacy seq
  let s := fetchForLedger shadow seq
  if l.length ≠ s.length then false
  else rowsMatch l s

/-- Whether an `Outcome` is a panic. -/
def Outcome.isPanic {α : Type} : Outcome α → Bool
  | .panicked _ => true
  | _ => false

/-- Whether an `Outcome` is a normal error return. -/
def Outcome.isError {α : Type} : Outcome α → Bool
  | .error _ => true
  | _ => false

/-- Whether an `Outcome` is a normal value. -/
def Outcome.isOk {α : Type} : Outcome α → Bool
  | .ok _ => true
  | _ => false

/-- A minimal concrete ledger transaction (no memo, no time bounds, successful
result), used to instantiate the universal theorems. -/
def tx0 : LedgerTransaction :=
  { index := 0,
    envelope := { tx := { sourceAccount := "", fee := 0, seqNum := 0,
                          timeBounds := none,
                          memo := { type := 0, text := none, id := none,
                                    hash := none, retHash := none },
                          operations := 0 },
                  signatures := [] },
    result := { transactionHash := [],
                result := { feeCharged := 0, resultCode := .txSuccess } } }

/-- A concrete transaction with a text memo whose bytes spell
`hi`, NUL, `there` (104 105 0 116 104 101 114 101). -/
def txHi : LedgerTransaction :=
  { index := 0,
    envelope := { tx := { sourceAccount := "", fee := 0, seqNum := 0,
                          timeBounds := none,
                          memo := { type := 1,
                                    text := some [104, 105, 0, 116, 104, 101, 114, 101],
                                    id := none, hash := none, retHash := none },
                          operations := 0 },
                  signatures := [] },
    result := { transactionHash := [],
                result := { feeCharged := 0, resultCode := .txSuccess } } }

/-- A concrete transaction whose memo type tag 7 is outside the known range,
as a decoded payload from a future protocol version would be. -/
def txBadMemo : LedgerTransaction :=
  { index := 0,
    envelope := { tx := { sourceAccount := "", fee := 0, seqNum := 0,
                          timeBounds := none,
                          memo := { type := 7, text := none, id := none,
                                    hash := none, retHash := none },
                          operations := 0 },
                  signatures := [] },
    result := { transactionHash := [],
                result := { feeCharged := 0, resultCode := .txSuccess } } }

/-- The row `transactionToMap` produces for `tx0` at sequence 0 under a clock
that always returns 0. -/
def row0 : InsertRow :=
  { id := 0, transaction_hash := "", ledger_sequence := 0,
    application_order := 0, account := "", account_sequence := "0",
    max_fee := 0, fee_charged := 0, operation_count := 0,
    tx_envelope := "e", tx_result := "r", tx_meta := "m", tx_fee_meta := "f",
    sigs := [], time_bounds := .null, memo_type := "none",
    memoVal := { value := "", valid := false },
    created_at := 0, updated_at := 0, successful := true }

/-- The row `transactionToMap` produces for `tx0` at sequence 0 under the
clock whose i-th reading is i: the two `time.Now()` calls return different
instants. -/
def row8 : InsertRow :=
  { id := 0, transaction_hash := "", ledger_sequence := 0,
    application_order := 0, account := "", account_sequence := "0",
    max_fee := 0, fee_charged := 0, operation_count := 0,
    tx_envelope := "e", tx_result := "r", tx_meta := "m", tx_fee_meta := "f",
    sigs := [], time_bounds := .null, memo_type := "none",
    memoVal := { value := "", valid := false },
    created_at := 0, updated_at := 1, successful := true }

/-- A concrete persisted row lying in the key range of ledger sequence 5. -/
def rowA : TransactionRow :=
  { id := 21474836480, transaction_hash := "aa", ledger_sequence := 5,
    application_order := 0, account := "GA", account_sequence := "1",
    max_fee := 100, fee_charged := 100, operation_count := 1,
    tx_envelope := "e", tx_result := "r", tx_meta := "m", tx_fee_meta := "f",
    sigs := ["s1"], time_bounds := .null, memo_type := "none",
    memoVal := none, successful := some true }

/-- Like `rowA` but with a mutated `transaction_hash` column. -/
def rowB : TransactionRow :=
  { rowA with transaction_hash := "bb" }

/-- A concrete fetched row whose stored result decodes to a non-success code
while its success flag is set. -/
def tFlagged : Transaction :=
  { transactionHash := "h", txResult := .decoded .txFailed, successful := some true }

/-- A concrete fetched row whose stored result decodes to a non-success code
while its success flag is unset (`NULL`). -/
def tUnset : Transaction :=
  { transactionHash := "h", txResult := .decoded .txFailed, successful := none }

/-- C1: for every ledger transaction accepted by `transactionToMap`, the
produced row's `successful` field is true exactly when the decoded execution
result's code is the success code, and it equals that comparison outright —
it is computed from the decoded result (the input carries no external
success flag to copy). -/
theorem C1_successful_from_result :
    ∀ (now : Nat → Int) (envB64 resB64 metaB64 feeMetaB64 : Except String String)
      (transaction : LedgerTransaction) (sequence : Nat) (row : InsertRow),
      transactionToMap now envB64 resB64 metaB64 feeMetaB64 transaction sequence
        = .ok row →
      (row.successful = true ↔ transaction.result.result.resultCode = .txSuccess)
      ∧ row.successful
          = decide (transaction.result.result.resultCode = .txSuccess) := by
  intro now e r m f t seq row h
  unfold transactionToMap at h
  repeat' split at h
  all_goals try simp_all
  subst h
  constructor
  · simp [decide_eq_true_eq]
  · rfl

/-- Witness for C1 at a concrete input: `tx0` at sequence 0 normalizes to
`row0`, whose `successful` field is true and whose decoded result code is the
success code. -/
theorem C1_successful_from_result_witness :
    transactionToMap (fun _ => 0) (.ok "e") (.ok "r") (.ok "m") (.ok "f") tx0 0
      = .ok row0
    ∧ (row0.successful = true ↔ tx0.result.result.resultCode = .txSuccess) :=
  ⟨by decide,
   (C1_successful_from_result (fun _ => 0) (.ok "e") (.ok "r") (.ok "m")
     (.ok "f") tx0 0 row0 (by decide)).1⟩

/-- Counterexample to C8 as stated: the source sets `created_at` and
`updated_at` by two separate `time.Now().UTC()` calls, so under a clock whose
consecutive readings differ the produced row carries two different values.
Concretely, normalizing `tx0` at sequence 0 under the clock whose i-th reading
is i yields `row8`, whose `created_at` is 0 and whose `updated_at` is 1. -/
theorem C8_timestamps_counterexample :
    transactionToMap (fun i => (i : Int)) (.ok "e") (.ok "r") (.ok "m") (.ok "f")
      tx0 0 = .ok row8
    ∧ row8.created_at ≠ row8.updated_at := by
  constructor
  · decide
  · decide

/-- C8 amended: `created_at` is the first wall-clock reading made by the
normalizer and `updated_at` the second, so the two fields are identical
whenever the clock does not advance between the two consecutive readings (but
not in general). -/
theorem C8_timestamps_amended :
    ∀ (now : Nat → Int) (envB64 resB64 metaB64 feeMetaB64 : Except String String)
      (transaction : LedgerTransaction) (sequence : Nat) (row : InsertRow),
      transactionToMap now envB64 resB64 metaB64 feeMetaB64 transaction sequence
        = .ok row →
      row.created_at = now 0 ∧ row.updated_at = now 1
      ∧ (now 0 = now 1 → row.created_at = row.updated_at) := by
  intro now e r m f t seq row h
  unfold transactionToMap at h
  repeat' split at h
  all_goals try simp_all
  subst h
  refine ⟨rfl, rfl, ?_⟩
  intro hnow
  simpa using hnow

/-- Witness for C8 amended at a concrete input: under the constant clock the
two fields of `row0` coincide. -/
theorem C8_timestamps_amended_witness :
    row0.created_at = row0.updated_at :=
  (C8_timestamps_amended (fun _ => 0) (.ok "e") (.ok "r") (.ok "m") (.ok "f")
    tx0 0 row0 (by decide)).2.2 rfl

/-- C6: time-bounds normalization. No time-bounds block gives an absent stored
interval; a declared max time of the sentinel 0 gives a null upper bound with
the declared min time as lower bound; a declared max time above the maximum
signed 64-bit value 2^63 - 1 is clamped to that maximum. -/
theorem C6_time_bounds :
    ∀ (transaction : LedgerTransaction),
      (transaction.envelope.tx.timeBounds = none →
        formatTimeBounds transaction = .null)
      ∧ (∀ tb : TimeBounds, transaction.envelope.tx.timeBounds = some tb →
          tb.maxTime = 0 →
          formatTimeBounds transaction = .int8range tb.minTime none)
      ∧ (∀ tb : TimeBounds, transaction.envelope.tx.timeBounds = some tb →
          tb.maxTime > 9223372036854775807 →
          formatTimeBounds transaction
            = .int8range tb.minTime (some 9223372036854775807)) := by
  intro t
  refine ⟨?_, ?_, ?_⟩
  · intro h
    simp [formatTimeBounds, h]
  · intro tb h hmax
    simp [formatTimeBounds, h, hmax]
  · intro tb h hmax
    have h0 : tb.maxTime ≠ 0 := by omega
    simp only [formatTimeBounds, h]
    rw [if_neg h0, if_pos hmax]
    norm_num

/-- Witness for C6 at a concrete input: `tx0` declares no time bounds and
normalizes to an absent interval. -/
theorem C6_time_bounds_witness :
    formatTimeBounds tx0 = .null :=
  (C6_time_bounds tx0).1 (by decide)

/-- C5: for a memo type tag outside the five known variants both `memoType`
and `memo` panic (they never return a normal error), and the normalizer as a
whole panics rather than returning an error or producing a row; for the five
known tags the type dispatch of `memoType` never panics. -/
theorem C5_unknown_memo_type_panics :
    ∀ (transaction : LedgerTransaction) (now : Nat → Int)
      (a b c d : String) (sequence : Nat),
      (transaction.envelope.tx.memo.type ∉ ([0, 1, 2, 3, 4] : List Int) →
        (memoType transaction).isPanic = true
        ∧ (memo transaction).isPanic = true
        ∧ (memoType transaction).isError = false
        ∧ (memo transaction).isError = false
        ∧ (transactionToMap now (.ok a) (.ok b) (.ok c) (.ok d) transaction
            sequence).isPanic = true)
      ∧ (transaction.envelope.tx.memo.type ∈ ([0, 1, 2, 3, 4] : List Int) →
        (memoType transaction).isPanic = false
        ∧ (memoType transaction).isOk = true) := by
  intro t now a b c d seq
  constructor
  · intro h
    have h' : t.envelope.tx.memo.type ≠ 0 ∧ t.envelope.tx.memo.type ≠ 1
        ∧ t.envelope.tx.memo.type ≠ 2 ∧ t.envelope.tx.memo.type ≠ 3
        ∧ t.envelope.tx.memo.type ≠ 4 := by simpa using h
    obtain ⟨h0, h1, h2, h3, h4⟩ := h'
    have hmt : memoType t = .panicked "invalid memo type" := by
      simp [memoType, h0, h1, h2, h3, h4]
    have hm : memo t = .panicked "invalid memo type" := by
      simp [memo, h0, h1, h2, h3, h4]
    refine ⟨by simp [hmt, Outcome.isPanic], by simp [hm, Outcome.isPanic],
      by simp [hmt, Outcome.isError], by simp [hm, Outcome.isError], ?_⟩
    simp [transactionToMap, hmt, Outcome.isPanic]
  · intro h
    have h' : t.envelope.tx.memo.type = 0 ∨ t.envelope.tx.memo.type = 1
        ∨ t.envelope.tx.memo.type = 2 ∨ t.envelope.tx.memo.type = 3
        ∨ t.envelope.tx.memo.type = 4 := by simpa using h
    rcases h' with h|h|h|h|h <;>
      simp [memoType, h, Outcome.isPanic, Outcome.isOk]

/-- Witness for C5 at a concrete input: `txBadMemo` carries the unknown memo
type tag 7; the dispatch panics and the normalizer panics. -/
theorem C5_unknown_memo_type_panics_witness :
    (memoType txBadMemo).isPanic = true
    ∧ (transactionToMap (fun _ => 0) (.ok "e") (.ok "r") (.ok "m") (.ok "f")
        txBadMemo 0).isPanic = true :=
  ⟨((C5_unknown_memo_type_panics txBadMemo (fun _ => 0) "e" "r" "m" "f" 0).1
      (by decide)).1,
   ((C5_unknown_memo_type_panics txBadMemo (fun _ => 0) "e" "r" "m" "f" 0).1
      (by decide)).2.2.2.2⟩

/-- C4: a text memo is stored present, its value obtained by scrubbing the raw
bytes as text (invalid sequences replaced by the safe substitute) and then
removing every embedded NUL character — the stored value never contains a NUL
anywhere, not merely at the ends; concretely the text memo bytes of `txHi`
(`hi`, NUL, `there`) normalize to the present value `hithere` with memo type
`text`. -/
theorem C4_text_memo_strips_nulls :
    (∀ (transaction : LedgerTransaction) (bs : List Nat),
      transaction.envelope.tx.memo.type = 1 →
      transaction.envelope.tx.memo.text = some bs →
      memo transaction = .ok ⟨removeNulls (utf8Scrub bs), true⟩
      ∧ ∀ c ∈ (removeNulls (utf8Scrub bs)).data, c ≠ Char.ofNat 0)
    ∧ memo txHi = .ok ⟨"hithere", true⟩
    ∧ memoType txHi = .ok "text" := by
  refine ⟨?_, by decide, by decide⟩
  intro t bs h1 h2
  constructor
  · simp [memo, h1, h2]
  · intro c hc
    simp [removeNulls, List.mem_filter] at hc
    exact hc.2

/-- Witness for C4 at a concrete input: applying the universal part to `txHi`
shows its stored memo is exactly the scrubbed, NUL-stripped value. -/
theorem C4_text_memo_strips_nulls_witness :
    memo txHi
      = .ok ⟨removeNulls (utf8Scrub [104, 105, 0, 116, 104, 101, 114, 101]), true⟩ :=
  (C4_text_memo_strips_nulls.1 txHi [104, 105, 0, 116, 104, 101, 114, 101]
    (by decide) (by decide)).1

/-- Helper: no filter invocation ever appends the success predicate; each
appends only its own scoping predicate (or nothing). -/
theorem applyOp_no_success_filter (q : TransactionsQ) (op : FilterOp)
    (h : WherePred.successFilter ∉ q.sql.wheres) :
    WherePred.successFilter ∉ (applyOp q op).sql.wheres := by
  cases op with
  | forAccount lookup =>
    cases lookup <;> simp_all [applyOp, TransactionsQ.ForAccount]
  | forLedger lookup seq =>
    cases lookup <;> simp_all [applyOp, TransactionsQ.ForLedger]
  | includeFailedOp => simpa [applyOp, TransactionsQ.IncludeFailed] using h
  | page outcome =>
    simp only [applyOp, TransactionsQ.Page]
    split
    · exact h
    · cases outcome with
      | error e => simpa using h
      | ok p => cases p with | mk cursor descending => simp_all

/-- Helper: the success predicate never occurs among the WHERE clauses of a
query built by a filter chain, whatever the starting query without it. -/
theorem foldl_no_success_filter (ops : List FilterOp) :
    ∀ q : TransactionsQ, WherePred.successFilter ∉ q.sql.wheres →
      WherePred.successFilter ∉ (ops.foldl applyOp q).sql.wheres := by
  induction ops with
  | nil => intro q h; exact h
  | cons op rest ih =>
    intro q h
    exact ih _ (applyOp_no_success_filter q op h)

/-- Helper: the base query of `Q.Transactions()` carries no success
predicate, so neither does any query built from it. -/
theorem buildQ_no_success_filter (ops : List FilterOp) :
    WherePred.successFilter ∉ (buildQ ops).sql.wheres :=
  foldl_no_success_filter ops Transactions
    (by simp [Transactions, selectTransaction])

/-- Helper: only the `IncludeFailed` invocation changes the flag, and it only
sets it. -/
theorem applyOp_includeFailed (q : TransactionsQ) (op : FilterOp) :
    (applyOp q op).includeFailed
      = (q.includeFailed || decide (op = .includeFailedOp)) := by
  cases op with
  | forAccount lookup =>
    cases lookup <;> simp [applyOp, TransactionsQ.ForAccount]
  | forLedger lookup seq =>
    cases lookup <;> simp [applyOp, TransactionsQ.ForLedger]
  | includeFailedOp => simp [applyOp, TransactionsQ.IncludeFailed]
  | page outcome =>
    simp only [applyOp, TransactionsQ.Page]
    split
    · simp
    · cases outcome with
      | error e => simp
      | ok p => cases p with | mk cursor descending => simp

/-- Helper: the flag of a built query records whether `IncludeFailed` occurs
in the chain. -/
theorem foldl_includeFailed (ops : List FilterOp) :
    ∀ q : TransactionsQ,
      (ops.foldl applyOp q).includeFailed
        = (q.includeFailed
            || ops.any (fun op => decide (op = .includeFailedOp))) := by
  induction ops with
  | nil => intro q; simp
  | cons op rest ih =>
    intro q
    rw [List.foldl_cons, ih, applyOp_includeFailed]
    simp [Bool.or_assoc]

/-- Helper: `includeFailed` is set on a built query exactly when
`IncludeFailed()` was called somewhere in the chain. -/
theorem buildQ_includeFailed (ops : List FilterOp) :
    (buildQ ops).includeFailed = true ↔ FilterOp.includeFailedOp ∈ ops := by
  rw [buildQ, foldl_includeFailed]
  simp [Transactions, List.any_eq_true]

/-- C2: on a query built by `Q.Transactions()` without `IncludeFailed()`,
`Select` conjoins exactly one success predicate
`(ht.successful = true OR ht.successful IS NULL)` and it is the final WHERE
clause — the scoping predicates added earlier never include it; when
`IncludeFailed()` was called, the SQL handed to the session is the built query
unchanged, with no success predicate anywhere. -/
theorem C2_success_filter_final (ops : List FilterOp) :
    (FilterOp.includeFailedOp ∉ ops →
      (buildQ ops).selectSQL.wheres
        = (buildQ ops).sql.wheres ++ [WherePred.successFilter]
      ∧ WherePred.successFilter ∉ (buildQ ops).sql.wheres)
    ∧ (FilterOp.includeFailedOp ∈ ops →
      (buildQ ops).selectSQL = (buildQ ops).sql
      ∧ WherePred.successFilter ∉ (buildQ ops).selectSQL.wheres) := by
  constructor
  · intro h
    have hif : (buildQ ops).includeFailed = false := by
      cases hb : (buildQ ops).includeFailed with
      | false => rfl
      | true => exact absurd ((buildQ_includeFailed ops).mp hb) h
    exact ⟨by simp [TransactionsQ.selectSQL, hif], buildQ_no_success_filter ops⟩
  · intro h
    have hif : (buildQ ops).includeFailed = true :=
      (buildQ_includeFailed ops).mpr h
    have hsql : (buildQ ops).selectSQL = (buildQ ops).sql := by
      simp [TransactionsQ.selectSQL, hif]
    exact ⟨hsql, hsql ▸ buildQ_no_success_filter ops⟩

/-- Witness for C2 at a concrete chain: a single ledger filter without
`IncludeFailed()`; the final SQL is the built WHERE clauses with the success
predicate appended as last clause. -/
theorem C2_success_filter_final_witness :
    (buildQ [FilterOp.forLedger (.ok ()) 5]).selectSQL.wheres
      = (buildQ [FilterOp.forLedger (.ok ()) 5]).sql.wheres
        ++ [WherePred.successFilter] :=
  ((C2_success_filter_final [FilterOp.forLedger (.ok ()) 5]).1 (by decide)).1

/-- C7: `ForLedger seq` (with a successful ledger lookup) appends exactly the
predicate `ht.id >= pack seq 0 0 AND ht.id < pack (seq+1) 0 0`, and that
half-open key range covers the key of every (transaction, operation) slot of
ledger `seq`. -/
theorem C7_for_ledger_range :
    ∀ (q : TransactionsQ) (seq : Int),
      (q.ForLedger (.ok ()) seq).sql.wheres
        = q.sql.wheres
          ++ [WherePred.idRange (pack seq 0 0) (pack (seq + 1) 0 0)]
      ∧ (∀ txIndex opIndex : Int,
          0 ≤ txIndex → txIndex < 1048576 → 0 ≤ opIndex → opIndex < 4096 →
          pack seq 0 0 ≤ pack seq txIndex opIndex
          ∧ pack seq txIndex opIndex < pack (seq + 1) 0 0) := by
  intro q seq
  constructor
  · simp [TransactionsQ.ForLedger]
  · intro ti oi h1 h2 h3 h4
    unfold pack
    constructor <;> omega

/-- Witness for C7 at a concrete input: the base query restricted to ledger 5,
and the key of transaction 1, operation 2 of ledger 5 lying in the range. -/
theorem C7_for_ledger_range_witness :
    (Transactions.ForLedger (.ok ()) 5).sql.wheres
      = Transactions.sql.wheres
        ++ [WherePred.idRange (pack 5 0 0) (pack (5 + 1) 0 0)]
    ∧ pack 5 0 0 ≤ pack 5 1 2 ∧ pack 5 1 2 < pack (5 + 1) 0 0 :=
  ⟨(C7_for_ledger_range Transactions 5).1,
   (C7_for_ledger_range Transactions 5).2 1 2 (by decide) (by decide)
     (by decide) (by decide)⟩

/-- C3: for every fetched row whose stored result decodes, the per-row check
of `Select` reports a data-corruption error exactly when (1) failed rows were
excluded and the decoded result is not success or the row is not successful,
or (2) the row counts as successful but the decoded result is not success, or
(3) the row does not count as successful but the decoded result is success
(a row with an unset flag counts as successful, per `IsSuccessful`); and the
loop over the fetched rows returns no error exactly when no row fails its
check, so a failing row is never swallowed. -/
theorem C3_row_corruption_errors :
    (∀ (includeFailed : Bool) (t : Transaction) (code : TransactionResultCode),
      t.txResult = .decoded code →
      ((checkRow includeFailed t).isSome = true ↔
        ((includeFailed = false
            ∧ (code ≠ .txSuccess ∨ t.IsSuccessful = false))
         ∨ (t.IsSuccessful = true ∧ code ≠ .txSuccess)
         ∨ (t.IsSuccessful = false ∧ code = .txSuccess))))
    ∧ (∀ (includeFailed : Bool) (rows : List Transaction),
      (checkRows includeFailed rows = none ↔
        ∀ t ∈ rows, checkRow includeFailed t = none)) := by
  constructor
  · intro inc t code h
    cases inc <;> cases hs : t.IsSuccessful <;>
      by_cases hc : code = TransactionResultCode.txSuccess <;>
        simp [checkRow, h, hs, hc]
  · intro inc rows
    induction rows with
    | nil => simp [checkRows]
    | cons t rest ih =>
      cases hcr : checkRow inc t <;> simp [checkRows, hcr, ih]

/-- Witness for C3 at a concrete input: a row whose flag is set but whose
stored result decodes to a failure is reported even with failed rows
included. -/
theorem C3_row_corruption_errors_witness :
    (checkRow true tFlagged).isSome = true :=
  (C3_row_corruption_errors.1 true tFlagged .txFailed (by decide)).mpr
    (Or.inr (Or.inl (by decide)))

/-- Counterexample to C10 as stated: a row with an unset success flag whose
stored result decodes to a failure is reported, when failed rows are excluded,
with the include-failed corruption error — that check fires first — not with
the "successful=true but returned transaction is not success" error the claim
names for every case. -/
theorem C10_unset_flag_counterexample :
    checkRow false tUnset = some .corruptExcludedResultFailed
    ∧ some SelectError.corruptExcludedResultFailed
        ≠ some SelectError.corruptSuccessfulTrue := by
  exact ⟨by decide, by decide⟩

/-- C10 amended: an unset (`NULL`) success flag is treated as successful by
`IsSuccessful`; a row with an unset flag whose decoded result is not success
always triggers a corruption error — with the "successful=true but returned
transaction is not success" error when failed rows are included, and with the
include-failed corruption error when they are excluded; a row with an unset
flag whose decoded result is success passes all checks. -/
theorem C10_unset_flag_amended :
    (∀ t : Transaction, t.successful = none → t.IsSuccessful = true)
    ∧ (∀ (t : Transaction) (code : TransactionResultCode),
        t.successful = none → t.txResult = .decoded code →
        code ≠ .txSuccess →
        checkRow true t = some .corruptSuccessfulTrue
        ∧ checkRow false t = some .corruptExcludedResultFailed)
    ∧ (∀ (t : Transaction) (includeFailed : Bool),
        t.successful = none → t.txResult = .decoded .txSuccess →
        checkRow includeFailed t = none) := by
  refine ⟨?_, ?_, ?_⟩
  · intro t h
    simp [Transaction.IsSuccessful, h]
  · intro t code h hres hc
    have hsucc : t.IsSuccessful = true := by simp [Transaction.IsSuccessful, h]
    constructor <;> simp [checkRow, hres, hsucc, hc]
  · intro t inc h hres
    have hsucc : t.IsSuccessful = true := by simp [Transaction.IsSuccessful, h]
    cases inc <;> simp [checkRow, hres, hsucc]

/-- Witness for C10 amended at a concrete input: the unset-flag failed-result
row is reported with the successful=true error when failed rows are
included. -/
theorem C10_unset_flag_amended_witness :
    checkRow true tUnset = some .corruptSuccessfulTrue :=
  (C10_unset_flag_amended.2.1 tUnset .txFailed rfl rfl (by decide)).1

/-- Helper: the column-by-column row comparison of the checker succeeds
exactly on equal rows. -/
theorem rowEq_iff (a b : TransactionRow) : rowEq a b = true ↔ a = b := by
  cases a
  cases b
  simp [rowEq, TransactionRow.mk.injEq]

/-- Helper: the pairwise row comparison of two fetched lists succeeds exactly
on equal lists (a size mismatch fails it). -/
theorem rowsMatch_iff (l s : List TransactionRow) :
    rowsMatch l s = true ↔ l = s := by
  induction l generalizing s with
  | nil => cases s <;> simp [rowsMatch]
  | cons a l ih =>
    cases s with
    | nil => simp [rowsMatch]
    | cons b s => simp [rowsMatch, ih, rowEq_iff, Bool.and_eq_true]

/-- Helper: the checker body on two fetched lists is true exactly when the
lists are equal. -/
theorem checkBody_iff (l s : List TransactionRow) :
    (if l.length ≠ s.length then false else rowsMatch l s) = true ↔ l = s := by
  split
  · rename_i hne
    simp only [Bool.false_eq_true, false_iff]
    intro h
    exact hne (by rw [h])
  · exact rowsMatch_iff l s

/-- Helper: the checker verdict is valid exactly when the two tables hold
equal ordered row sets over the ledger's key range. -/
theorem checkExp_iff (legacy shadow : List TransactionRow) (seq : Int) :
    CheckExpTransactions legacy shadow seq = true ↔
      fetchForLedger legacy seq = fetchForLedger shadow seq := by
  unfold CheckExpTransactions
  exact checkBody_iff _ _

/-- C9: the checker returns true exactly when the legacy and shadow tables
hold identical ordered row sets over the ledger's key range (in particular
when both are empty, and again after a mutated row is restored); any
difference — in size, or in any single column of any one row, which makes the
rows at that position differ — yields false. The checker is a pure function of
the two tables (read-only), so repeated runs with no intervening writes return
the same verdict by construction. -/
theorem C9_check_exp_transactions :
    ∀ (legacy shadow : List TransactionRow) (seq : Int),
      (CheckExpTransactions legacy shadow seq = true ↔
        fetchForLedger legacy seq = fetchForLedger shadow seq)
      ∧ (∀ (i : Nat) (a b : TransactionRow),
          (fetchForLedger legacy seq)[i]? = some a →
          (fetchForLedger shadow seq)[i]? = some b →
          a ≠ b →
          CheckExpTransactions legacy shadow seq = false)
      ∧ CheckExpTransactions legacy legacy seq = true := by
  intro legacy shadow seq
  refine ⟨checkExp_iff legacy shadow seq, ?_,
    (checkExp_iff legacy legacy seq).mpr rfl⟩
  intro i a b ha hb hab
  cases hc : CheckExpTransactions legacy shadow seq with
  | false => rfl
  | true =>
    exfalso
    have heq := (checkExp_iff legacy shadow seq).mp hc
    rw [heq] at ha
    rw [ha] at hb
    exact hab (Option.some.inj hb)

/-- Witness for C9 at a concrete input: two one-row tables for ledger 5 that
differ in the hash column of their only row fail the check, and identical
tables pass it. -/
theorem C9_check_exp_transactions_witness :
    CheckExpTransactions [rowA] [rowB] 5 = false
    ∧ CheckExpTransactions [rowA] [rowA] 5 = true :=
  ⟨(C9_check_exp_transactions [rowA] [rowB] 5).2.1 0 rowA rowB (by decide)
      (by decide) (by decide),
   (C9_check_exp_transactions [rowA] [rowA] 5).2.2⟩
